import Mathlib

/-!
Verification development for the VLM GitHub-releases navigation agent.

The Python sources are shallowly embedded below:
* `tools/vision.py`   — the `Action` schema and `_normalize_action_payload`
  (JSON payloads are modelled by the inductive `JVal`; pydantic validation of a
  payload into an `Action` is modelled by `Action.model_validate`, with `none`
  standing for a `ValidationError` / decode error);
* `utils/bbox_guards.py` — `bbox_in_valid_column` (the float literals 0.10,
  0.16, 0.82 are embedded as the exact rationals they denote);
* `agent/state.py`    — `Stage`, `ReleaseInfo`, `AgentState` with its bounded
  `push_url` / `push_hash` history buffers (screenshot bytes are abstracted to
  a `Png` record carrying the perceptual hash and pixel dimensions: the agent
  logic never inspects the bytes except through `average_hash` and the image
  size, so this abstraction is faithful);
* `tools/validator.py` — `Validator.assess`;
* `agent/graph.py`    — the five graph nodes, `grid_points`,
  `shrink_top_left`, `clamp_bbox_to_viewport` and
  `explore_click_points_multi`.  Browser, vision model and extractor are
  external collaborators; their replies enter as explicit oracle values, and
  pure side effects (tracing, logging, file writes, the actual mouse events)
  are omitted since they never touch the session state.

`stepNode` executes one graph node, `runFrom` folds a list of per-step oracles,
and `Reachable` is the induced reachability predicate from the initial state
built by `navigate.py`.
-/

namespace BrowserAgent

/-! ### String helpers (Python `in` substring test and `.lower()`) -/

def startsWithL : List Char → List Char → Bool
  | [], _ => true
  | _ :: _, [] => false
  | a :: as, b :: bs => a = b && startsWithL as bs

def hasSubList (pat : List Char) : List Char → Bool
  | [] => startsWithL pat []
  | c :: rest => startsWithL pat (c :: rest) || hasSubList pat rest

/-- Python `pat in s` (substring containment). -/
def strHasSub (s pat : String) : Bool :=
  hasSubList pat.toList s.toList

/-- Python `s.lower()` (the strings handled here are ASCII). -/
def strToLower (s : String) : String :=
  ⟨s.toList.map Char.toLower⟩

/-! ### JSON values (the vision model's untrusted payloads) -/

inductive JVal where
  | jnull
  | jbool (b : Bool)
  | jint (n : Int)
  | jrat (q : ℚ)
  | jstr (s : String)
  | jlist (xs : List JVal)
  | jobj (fields : List (String × JVal))

abbrev JObj := List (String × JVal)

/-- Python `payload.get(k)`: `none` when the key is absent. -/
def jget (o : JObj) (k : String) : Option JVal :=
  match o with
  | [] => none
  | (k', v) :: rest => if k' = k then some v else jget rest k

/-- Python `k in payload` (key membership, regardless of the value). -/
def jhas (o : JObj) (k : String) : Bool :=
  (jget o k).isSome

/-- Python `payload[k] = v`: replace in place, or append a new key. -/
def jset (o : JObj) (k : String) (v : JVal) : JObj :=
  match o with
  | [] => [(k, v)]
  | (k', v') :: rest => if k' = k then (k, v) :: rest else (k', v') :: jset rest k v

/-- Python `{**a, **b}`. -/
def jmerge (a b : JObj) : JObj :=
  b.foldl (fun acc kv => jset acc kv.1 kv.2) a

/-! ### The Action schema (`tools/vision.py`, pydantic models) -/

structure ScrollSpec where
  direction : String
  amount : Int
deriving DecidableEq, Repr

structure ExpectSpec where
  url_contains : Option String := none
  page_contains_text : Option String := none
deriving DecidableEq, Repr

structure CandidateBBox where
  bbox : List Int
  confidence : Option ℚ := none
  text : Option String := none
  reason : Option String := none
deriving DecidableEq, Repr

structure Action where
  type : String
  reason : String
  bbox : Option (List Int) := none
  text : Option String := none
  key : Option String := none
  scroll : Option ScrollSpec := none
  expect : Option ExpectSpec := none
  candidates : Option (List CandidateBBox) := none
deriving DecidableEq, Repr

structure ReleaseInfo where
  version : Option String := none
  tag : Option String := none
  author : Option String := none
deriving DecidableEq, Repr

/-! ### `VisionClient._normalize_action_payload` -/

/-- Python `round` on a float (banker's rounding, half to even). -/
def roundHalfEven (q : ℚ) : Int :=
  let f : Int := ⌊q⌋
  let frac : ℚ := q - f
  if frac < 1 / 2 then f
  else if 1 / 2 < frac then f + 1
  else if f % 2 = 0 then f else f + 1

def keyAllowList : List String :=
  ["Enter", "Tab", "Escape", "ArrowDown", "ArrowUp", "ArrowLeft", "ArrowRight",
   "PageDown", "PageUp", "Home", "End", "Backspace", "Delete"]

/-- One candidate entry of the candidates-normalization loop
(`vision.py` lines 110-120): dict entries get the coords→bbox promotion and the
bbox-dict merge and are kept when they end with a list-valued `bbox`; bare
4-element arrays are wrapped; anything else is dropped. -/
def normalizeCandidateEntry (c : JVal) (acc : List JVal) : List JVal :=
  match c with
  | .jobj fields =>
    let fields :=
      if jhas fields "coords" && !jhas fields "bbox" then
        jset fields "bbox" ((jget fields "coords").getD .jnull)
      else fields
    let fields :=
      match jget fields "bbox" with
      | some (.jobj bf) => jmerge fields bf
      | _ => fields
    match jget fields "bbox" with
    | some (.jlist _) => .jobj fields :: acc
    | _ => acc
  | .jlist els => if els.length = 4 then .jobj [("bbox", .jlist els)] :: acc else acc
  | _ => acc

/-- `VisionClient._normalize_action_payload` (`vision.py` lines 92-155). -/
def normalize_action_payload (payload : JObj) : JObj :=
  -- action_type is read once, before any rewriting
  let actionType := jget payload "type"
  let payload :=
    match actionType with
    | some (.jstr t) =>
      if strToLower t = "bbox" ∨ strToLower t = "box" then
        jset payload "type" (.jstr "click")
      else payload
    | _ => payload
  let payload :=
    match actionType with
    | some (.jstr t) =>
      if strToLower t = "click_type" ∨ strToLower t = "click-and-type" ∨
          strToLower t = "click_and_type" then
        jset payload "type" (.jstr "click")
      else payload
    | _ => payload
  -- Map top-level coords -> bbox if present.
  let payload :=
    if jhas payload "coords" && !jhas payload "bbox" then
      jset payload "bbox" ((jget payload "coords").getD .jnull)
    else payload
  -- If bbox is a list of bboxes, move them into candidates.
  let payload :=
    match jget payload "bbox" with
    | some (.jlist (b0 :: bs)) =>
      match b0 with
      | .jlist _ =>
        jset (jset payload "candidates" (.jlist ((b0 :: bs).map fun b => .jobj [("bbox", b)])))
          "bbox" .jnull
      | _ => payload
    | _ => payload
  -- Normalize candidates
  let payload :=
    match jget payload "candidates" with
    | some (.jlist cs) => jset payload "candidates" (.jlist (cs.foldr normalizeCandidateEntry []))
    | _ => payload
  -- A bare string expect becomes a text-contains object.
  let payload :=
    match jget payload "expect" with
    | some (.jstr s) => jset payload "expect" (.jobj [("page_contains_text", .jstr s)])
    | _ => payload
  -- A `False` scroll is treated as absent.
  let payload :=
    match jget payload "scroll" with
    | some (.jbool false) => jset payload "scroll" .jnull
    | _ => payload
  -- A float scroll amount in (0,1) becomes the fixed default; other floats round.
  let payload :=
    match jget payload "scroll" with
    | some (.jobj sf) =>
      match jget sf "amount" with
      | some (.jrat q) =>
        let amt : JVal := if 0 < q ∧ q < 1 then .jint 400 else .jint (roundHalfEven q)
        jset payload "scroll" (.jobj (jset sf "amount" amt))
      | _ => payload
    | _ => payload
  -- Keys outside the allow-list are nulled.
  let payload :=
    match jget payload "key" with
    | some (.jstr k) => if k ∈ keyAllowList then payload else jset payload "key" .jnull
    | _ => payload
  payload

/-! ### pydantic validation of a payload into an `Action`
(`Action.model_validate`; `none` models a raised `ValidationError`). -/

/-- Lax-mode `int` field: ints, and floats with zero fractional part. -/
def jToInt : JVal → Option Int
  | .jint n => some n
  | .jrat q => if q.den = 1 then some q.num else none
  | _ => none

def jToIntList : JVal → Option (List Int)
  | .jlist xs => xs.foldr (fun x acc => do pure ((← jToInt x) :: (← acc))) (some [])
  | _ => none

def jToQ : JVal → Option ℚ
  | .jint n => some (n : ℚ)
  | .jrat q => some q
  | _ => none

/-- A required `str` field: missing, `None` or non-string values fail. -/
def reqStrField (o : JObj) (k : String) : Option String :=
  match jget o k with
  | some (.jstr s) => some s
  | _ => none

/-- An `Optional[str]` field: absent or `None` is fine, anything else must be a string. -/
def optStrField (o : JObj) (k : String) : Option (Option String) :=
  match jget o k with
  | none => some none
  | some .jnull => some none
  | some (.jstr s) => some (some s)
  | some _ => none

def optQField (o : JObj) (k : String) : Option (Option ℚ) :=
  match jget o k with
  | none => some none
  | some .jnull => some none
  | some v => (jToQ v).map some

def optIntListField (o : JObj) (k : String) : Option (Option (List Int)) :=
  match jget o k with
  | none => some none
  | some .jnull => some none
  | some v => (jToIntList v).map some

def CandidateBBox.model_validate (v : JVal) : Option CandidateBBox :=
  match v with
  | .jobj f => do
    let bv ← jget f "bbox"
    let b ← jToIntList bv
    let conf ← optQField f "confidence"
    let txt ← optStrField f "text"
    let rsn ← optStrField f "reason"
    pure { bbox := b, confidence := conf, text := txt, reason := rsn }
  | _ => none

def ScrollSpec.model_validate (v : JVal) : Option ScrollSpec :=
  match v with
  | .jobj f => do
    let d ← reqStrField f "direction"
    let av ← jget f "amount"
    let a ← jToInt av
    pure { direction := d, amount := a }
  | _ => none

def ExpectSpec.model_validate (v : JVal) : Option ExpectSpec :=
  match v with
  | .jobj f => do
    let u ← optStrField f "url_contains"
    let p ← optStrField f "page_contains_text"
    pure { url_contains := u, page_contains_text := p }
  | _ => none

def optSubModel (valid : JVal → Option α) (o : JObj) (k : String) : Option (Option α) :=
  match jget o k with
  | none => some none
  | some .jnull => some none
  | some v => (valid v).map some

def optCandidatesField (o : JObj) (k : String) : Option (Option (List CandidateBBox)) :=
  match jget o k with
  | none => some none
  | some .jnull => some none
  | some (.jlist xs) =>
    (xs.foldr (fun x acc => do pure ((← CandidateBBox.model_validate x) :: (← acc)))
      (some [])).map some
  | some _ => none

/-- `Action.model_validate` (pydantic): `type` and `reason` are required
strings; all other fields are optional.  Unknown keys are ignored. -/
def Action.model_validate (o : JObj) : Option Action := do
  let t ← reqStrField o "type"
  let r ← reqStrField o "reason"
  let bbox ← optIntListField o "bbox"
  let text ← optStrField o "text"
  let key ← optStrField o "key"
  let scroll ← optSubModel ScrollSpec.model_validate o "scroll"
  let expect ← optSubModel ExpectSpec.model_validate o "expect"
  let cands ← optCandidatesField o "candidates"
  pure { type := t, reason := r, bbox := bbox, text := text, key := key,
         scroll := scroll, expect := expect, candidates := cands }

/-- `VisionClient._call_action` after the raw JSON came back: normalize, then
validate; `none` is the `RuntimeError("Invalid Action JSON")` decode error. -/
def call_action (payload : JObj) : Option Action :=
  Action.model_validate (normalize_action_payload payload)

/-! ### `utils/bbox_guards.py` — the Visual Candidate Filter's geometric gate.

The Python code computes the centre with float division by 2.0 and compares it
against `img_h * 0.10`, `img_w * 0.16`, `img_w * 0.82`; all quantities are
embedded as exact rationals.  (The colour-histogram helpers of the same file
are computed only for logging in `act_node` and gate nothing, so they are not
modelled.) -/

def bbox_in_valid_column (x1 y1 x2 y2 : Int) (img_w img_h : Int) : Bool :=
  if x2 ≤ x1 ∨ y2 ≤ y1 then false
  else if x2 - x1 < 5 ∨ y2 - y1 < 5 then false
  else
    -- cy < img_h * 0.10, cx < img_w * 0.16, cx > img_w * 0.82 with
    -- cx = (x1+x2)/2, cy = (y1+y2)/2: the exact rational comparisons with
    -- denominators cleared (both sides multiplied by 100·2/2 = 100... i.e.
    -- (a/2 ≶ w·p/100) ⟺ (50·a ≶ p·w))
    if 50 * (y1 + y2) < 10 * img_h then false
    else if 50 * (x1 + x2) < 16 * img_w then false
    else if 50 * (x1 + x2) > 82 * img_w then false
    else true

/-- Applying the gate to a raw bbox list.  The callers in `act_node` only feed
length-4 lists (the candidate loop filters on `len(bbox) == 4`); a list of any
other length would make the Python tuple unpacking raise, modelled as `false`. -/
def bboxListInValidColumn (b : List Int) (img_w img_h : Int) : Bool :=
  match b with
  | [x1, y1, x2, y2] => bbox_in_valid_column x1 y1 x2 y2 img_w img_h
  | _ => false

/-! ### Grid exploration helpers (`agent/graph.py` lines 331-403) -/

/-- `_grid_points`: `int(fx * w)` with `fx = (i+1)/(xs+1)` and `w ≥ 1` is the
floor of a nonnegative value, embedded as exact integer division. -/
def grid_points (x1 y1 x2 y2 : Int) (xs ys : Nat) : List (Int × Int) :=
  let w : Int := max 1 (x2 - x1)
  let h : Int := max 1 (y2 - y1)
  let pxOf : Nat → Int := fun i =>
    min (max (x1 + ((i : Int) + 1) * w / ((xs : Int) + 1)) (x1 + 4)) (x2 - 4)
  let pyOf : Nat → Int := fun j =>
    min (max (y1 + ((j : Int) + 1) * h / ((ys : Int) + 1)) (y1 + 4)) (y2 - 4)
  (((List.range ys).map fun j => (List.range xs).map fun i => (pxOf i, pyOf j)).flatten).take 10

/-- `_shrink_top_left` at the fixed `scale = 0.70` both call sites pass:
`int(0.70 * w)` with `w ≥ 1` is the floor of the exact rational `70·w/100`,
embedded as integer division (nonnegative operands, so the floor). -/
def shrink_top_left (x1 y1 x2 y2 : Int) : Int × Int × Int × Int :=
  let w : Int := max 1 (x2 - x1)
  let h : Int := max 1 (y2 - y1)
  (x1, y1, x1 + 70 * w / 100, y1 + 70 * h / 100)

/-- `_clamp_bbox_to_viewport`: x is kept above the fixed 220px left margin. -/
def clamp_bbox_to_viewport (vw vh : Int) (x1 y1 x2 y2 : Int) : Int × Int × Int × Int :=
  (max 220 (min x1 vw), max 0 (min y1 vh), max 220 (min x2 vw), max 0 (min y2 vh))

/-- The browser as seen by `_explore_click_points_multi`: a viewport size and,
for each successive `click_point`, the page URL before and after the click
settles.  (`viewport_size or {1280,720}` is resolved by the oracle.) -/
structure BrowserOracle where
  viewportW : Int := 1280
  viewportH : Int := 720
  clickResults : List (String × String) := []
deriving DecidableEq, Repr

def clickResultAt (bo : BrowserOracle) (n : Nat) : String × String :=
  bo.clickResults.getD n ("", "")

/-- The inner click loop shared by the three rounds: returns whether a click
succeeded, the points actually clicked, and the next click index. -/
def tryPoints (bo : BrowserOracle) (targetPath : String) :
    List (Int × Int) → Nat → List (Int × Int) → Bool × List (Int × Int) × Nat
  | [], idx, clicked => (false, clicked, idx)
  | p :: rest, idx, clicked =>
    let r := clickResultAt bo idx
    let clicked := clicked ++ [p]
    if r.2 ≠ r.1 ∧ strHasSub (strToLower r.2) targetPath then (true, clicked, idx + 1)
    else tryPoints bo targetPath rest (idx + 1) clicked

/-- `_explore_click_points_multi`: clamp, early-exit on a (near-)degenerate
region, then up to three shrinking rounds of grid clicks.  The result carries
the success flag and the list of points that were clicked. -/
def explore_click_points_multi (bo : BrowserOracle) (x1 y1 x2 y2 : Int)
    (target_repo : String) : Bool × List (Int × Int) :=
  let c := clamp_bbox_to_viewport bo.viewportW bo.viewportH x1 y1 x2 y2
  let cx1 := c.1
  let cy1 := c.2.1
  let cx2 := c.2.2.1
  let cy2 := c.2.2.2
  if cx2 ≤ cx1 + 20 ∨ cy2 ≤ cy1 + 20 then (false, [])
  else
    let targetPath := strToLower ("/" ++ target_repo)
    let roundA := grid_points cx1 cy1 cx2 cy2 3 2
    let b := shrink_top_left cx1 cy1 cx2 cy2
    let roundB := grid_points b.1 b.2.1 b.2.2.1 b.2.2.2 5 2
    let d := shrink_top_left b.1 b.2.1 b.2.2.1 b.2.2.2
    let roundC := grid_points d.1 d.2.1 d.2.2.1 d.2.2.2 5 2
    let ra := tryPoints bo targetPath roundA 0 []
    if ra.1 then (true, ra.2.1)
    else
      let rb := tryPoints bo targetPath roundB ra.2.2 ra.2.1
      if rb.1 then (true, rb.2.1)
      else
        let rc := tryPoints bo targetPath roundC rb.2.2 rb.2.1
        (rc.1, rc.2.1)

/-! ### `agent/state.py` — stages and the session state -/

inductive Stage where
  | HOME
  | SEARCH_RESULTS
  | REPO
  | RELEASES
  | EXTRACTED
  | DONE
deriving DecidableEq, Repr

/-- A screenshot abstracted to what the agent logic reads from it: its
`average_hash` fingerprint and its pixel size.  `none` on a state field stands
for a missing (or empty, hence falsy) bytes value. -/
structure Png where
  hash : String
  width : Int
  height : Int
deriving DecidableEq, Repr

/-- The candidate dicts built in `act_node` and stored in
`pending_candidates`: `{"bbox": ..., "confidence": ..., "reason": ...}`. -/
structure Candidate where
  bbox : List Int
  confidence : Option ℚ := none
  reason : Option String := none
deriving DecidableEq, Repr

/-- `AgentState`.  Fields that carry no decision logic (prompt and model
names, `run_dir`, `last_screenshot_path`, `next_node`) are omitted; the
routing value that Python stores in `next_node` is returned alongside the
state by every node function below. -/
structure AgentState where
  target_repo : String := "openclaw/openclaw"
  start_url : String := "https://github.com"
  current_url : Option String := none
  page_title : Option String := none
  last_png_bytes : Option Png := none
  last_png_bytes_raw : Option Png := none
  step_count : Nat := 0
  retry_count : Nat := 0
  max_steps : Nat := 25
  max_retries_per_stage : Nat := 3
  last_urls : List String := []
  last_screenshot_hashes : List String := []
  stage : Stage := .HOME
  last_action : Option Action := none
  last_bbox : Option (List Int) := none
  refine_level : Nat := 0
  pending_candidates : List Candidate := []
  extracted_release : Option ReleaseInfo := none
deriving DecidableEq, Repr

/-- The append-and-truncate discipline of `push_url` / `push_hash`. -/
def pushKeep (maxKeep : Nat) (l : List α) (x : α) : List α :=
  let l' := l ++ [x]
  if maxKeep < l'.length then l'.drop (l'.length - maxKeep) else l'

def AgentState.push_url (s : AgentState) (url : String) : AgentState :=
  { s with last_urls := pushKeep 6 s.last_urls url }

def AgentState.push_hash (s : AgentState) (h : String) : AgentState :=
  { s with last_screenshot_hashes := pushKeep 6 s.last_screenshot_hashes h }

/-- Python truthiness of `state.current_url` (an absent or empty URL is falsy). -/
def urlTruthy : Option String → Bool
  | some u => u ≠ ""
  | none => false

/-- Python `state.current_url and pat in state.current_url`. -/
def urlHas (u : Option String) (pat : String) : Bool :=
  match u with
  | some s => s ≠ "" && strHasSub s pat
  | none => false

/-! ### `tools/validator.py` -/

structure ValidationResult where
  new_stage : Option Stage := none
  recovery_action : Option Action := none
  should_extract : Bool := false
  should_stop : Bool := false
  reason : Option String := none
deriving DecidableEq, Repr

def scrollDownRecovery : Action :=
  { type := "scroll", reason := "stuck_recovery_scroll_down",
    scroll := some { direction := "down", amount := 500 } }

def scrollUpRecovery : Action :=
  { type := "scroll", reason := "stuck_recovery_scroll_up",
    scroll := some { direction := "up", amount := 400 } }

def backRecovery : Action :=
  { type := "back", reason := "stuck_recovery_back" }

/-- The state after `assess` has pushed the fresh hash and (when truthy) the
current URL into the bounded histories.  `average_hash` of the screenshot is
the stored fingerprint `png.hash`. -/
def assessedState (s : AgentState) (png : Png) : AgentState :=
  let s := s.push_hash png.hash
  if urlTruthy s.current_url then s.push_url (s.current_url.getD "") else s

/-- The deadlock test of `assess` after the pushes: the current hash repeats
at least `t` times in the retained hash history and the current URL at least
`t` times in the retained URL history (`current_url and count or 0`). -/
def stuckCounts (s : AgentState) (png : Png) (t : Nat) : Prop :=
  t ≤ (assessedState s png).last_screenshot_hashes.count png.hash ∧
    t ≤ (if urlTruthy s.current_url then
          (assessedState s png).last_urls.count (s.current_url.getD "") else 0)

instance (s : AgentState) (png : Png) (t : Nat) : Decidable (stuckCounts s png t) := by
  unfold stuckCounts; infer_instance

structure AssessOut where
  state : AgentState
  result : ValidationResult
  hash : String
deriving Repr

/-- `Validator.assess` (repeatThreshold is 3 for the `Validator()` built in
`navigate.py`).  The hash/URL pushes mutate the passed state, so the updated
state is returned. -/
def assess (repeatThreshold : Nat) (s : AgentState) (png : Png) : AssessOut :=
  let h := png.hash
  let st := assessedState s png
  if st.max_steps ≤ st.step_count then
    ⟨st, { should_stop := true, reason := some "max_steps" }, h⟩
  else if stuckCounts s png repeatThreshold then
    let recoveryStep := st.retry_count % 3
    let ra := if recoveryStep = 0 then scrollDownRecovery
      else if recoveryStep = 1 then scrollUpRecovery
      else backRecovery
    ⟨st, { recovery_action := some ra, reason := some "stuck" }, h⟩
  else
    -- Heuristic stage progression based on URL
    let result : ValidationResult :=
      if urlTruthy st.current_url then
        let url := st.current_url.getD ""
        let r : ValidationResult := {}
        let r := if strHasSub url "github.com/search" ∧ st.stage = .HOME then
            { r with new_stage := some .SEARCH_RESULTS } else r
        let r := if strHasSub (strToLower url) (strToLower st.target_repo) ∧
            (st.stage = .SEARCH_RESULTS ∨ st.stage = .HOME) then
            { r with new_stage := some .REPO } else r
        let r := if strHasSub url "/releases" ∧
            (st.stage = .REPO ∨ st.stage = .SEARCH_RESULTS) then
            { r with new_stage := some .RELEASES, should_extract := true } else r
        r
      else {}
    ⟨st, result, h⟩

/-! ### `agent/graph.py` — the five nodes of the navigation state machine.

Each node returns the updated state together with the routing target that the
Python code stores in `state.next_node` (`END` is `Node.done`).  The oracles
(`Observation`, the vision model's `Action`, the `BrowserOracle`, the
extractor's `ReleaseInfo`) stand for the external collaborators. -/

inductive Node where
  | observe
  | decide
  | act
  | validate
  | extract
  | done
deriving DecidableEq, Repr

structure Observation where
  url : String
  title : String
  screenshot : Png
deriving DecidableEq, Repr

/-- `Action.model_validate(state.last_action or {"type": "noop", "reason": "missing"})`. -/
def noopMissing : Action := { type := "noop", reason := "missing" }

/-- Python truthiness of `action.bbox` (absent or empty list is falsy). -/
def bboxTruthy : Option (List Int) → Bool
  | some (_ :: _) => true
  | _ => false

/-- `observe_node`: capture the fresh observation (tracing writes omitted). -/
def observe_node (obs : Observation) (s : AgentState) : AgentState × Node :=
  ({ s with current_url := some obs.url, page_title := some obs.title,
            last_png_bytes := some obs.screenshot,
            last_png_bytes_raw := some obs.screenshot }, .decide)

/-- `decide_node`.  The vision model's reply is the oracle `visionAction`;
`retry_count > 0` only changes the subgoal text sent to the model, so both
call sites are covered by the same oracle value. -/
def decide_node (visionAction : Action) (s : AgentState) : AgentState × Node :=
  let s := if urlHas s.current_url "/search" then { s with stage := .SEARCH_RESULTS } else s
  let action : Action :=
    match s.pending_candidates, s.stage with
    | c :: _, .SEARCH_RESULTS =>
      { type := "click", reason := "pending_candidate", bbox := some c.bbox }
    | _, _ => visionAction
  let s := { s with last_action := some action }
  let s := if bboxTruthy action.bbox then { s with last_bbox := action.bbox } else s
  (s, .act)

/-- Run the grid exploration on a raw bbox list (Python unpacks the 4-tuple; a
list of another length would raise, modelled as failure). -/
def exploreOnList (bo : BrowserOracle) (b : List Int) (repo : String) : Bool :=
  match b with
  | [x1, y1, x2, y2] => (explore_click_points_multi bo x1 y1 x2 y2 repo).1
  | _ => false

/-- `act_node`.  The rejection record written to disk, the bbox overlay image
and the `blue_ratio` diagnostics are logging-only and omitted;
`_execute_action` only drives the browser and leaves the session state
untouched. -/
def act_node (bo : BrowserOracle) (s : AgentState) : AgentState × Node :=
  let action := s.last_action.getD noopMissing
  if s.stage = .SEARCH_RESULTS ∧ action.type = "click" ∧ bboxTruthy action.bbox then
    let success := exploreOnList bo (action.bbox.getD []) s.target_repo
    let s := if success then { s with stage := .REPO } else s
    ({ s with step_count := s.step_count + 1 }, .validate)
  else if s.stage = .SEARCH_RESULTS ∧ (s.last_png_bytes_raw).isSome then
    let png := (s.last_png_bytes_raw).getD { hash := "", width := 0, height := 0 }
    let fromCands : List Candidate :=
      match action.candidates with
      | some (c0 :: cs) =>
        -- the loop keeps, in order, the entries whose bbox is a 4-element list
        ((c0 :: cs).filter fun c => c.bbox.length = 4).map fun c =>
          { bbox := c.bbox, confidence := c.confidence, reason := c.reason }
      | _ => []
    -- `if action.type == "click_candidates": candidates.extend([])` is a no-op
    let candidates := fromCands ++
      (if bboxTruthy action.bbox then
        [{ bbox := action.bbox.getD [], confidence := none, reason := some "primary" }]
       else [])
    if candidates ≠ [] ∧ (action.type = "click" ∨ action.type = "click_candidates") then
      match candidates.find? fun c => bboxListInValidColumn c.bbox png.width png.height with
      | none =>
        let s := { s with retry_count := s.retry_count + 1 }
        if s.max_retries_per_stage < s.retry_count then ({ s with stage := .DONE }, .done)
        else (s, .validate)
      | some chosenCand =>
        let chosen := chosenCand.bbox
        let remaining := candidates.filter fun c => c.bbox ≠ chosen
        let s := { s with pending_candidates := remaining }
        -- the chosen bbox is clicked via `_execute_action` (browser only)
        ({ s with step_count := s.step_count + 1 }, .validate)
    else
      ({ s with step_count := s.step_count + 1 }, .validate)
  else
    ({ s with step_count := s.step_count + 1 }, .validate)

/-- The block of `validate_node` that applies a heuristic stage transition:
on transition it resets `retry_count` and `refine_level` and clears
`pending_candidates` (`graph.py` lines 170-174). -/
def applyStageTransition (result : ValidationResult) (s : AgentState) : AgentState :=
  match result.new_stage with
  | some st =>
    { s with stage := st, retry_count := 0, refine_level := 0, pending_candidates := [] }
  | none => s

/-- `len(state.last_urls) >= 2 and state.last_urls[-1] == state.last_urls[-2]`. -/
def lastTwoUrlsEqual (l : List String) : Bool :=
  match l.reverse with
  | a :: b :: _ => a = b
  | _ => false

def lastActionIsClick (s : AgentState) : Bool :=
  match s.last_action with
  | some a => a.type = "click"
  | none => false

/-- `validate_node`. -/
def validate_node (s : AgentState) : AgentState × Node :=
  match s.last_png_bytes with
  | none => (s, .observe)
  | some png =>
    let out := assess 3 s png
    let s := out.state
    let result := out.result
    if urlHas s.current_url "/login" then (s, .observe)
    else
      let s := applyStageTransition result s
      if result.should_stop then ({ s with stage := .DONE }, .done)
      else
        match result.recovery_action with
        | some ra =>
          let s := { s with retry_count := s.retry_count + 1 }
          if s.max_retries_per_stage < s.retry_count then ({ s with stage := .DONE }, .done)
          else ({ s with last_action := some ra }, .act)
        | none =>
          if s.stage = .SEARCH_RESULTS ∧ lastActionIsClick s ∧
              lastTwoUrlsEqual s.last_urls then
            match s.pending_candidates with
            | nextCand :: rest =>
              ({ s with pending_candidates := rest,
                        last_action := some { type := "click", reason := "next_candidate",
                                              bbox := some nextCand.bbox } }, .act)
            | [] =>
              ({ s with refine_level := min (s.refine_level + 1) 2,
                        retry_count := s.retry_count + 1 }, .observe)
          else if result.should_extract ∧ s.stage = .RELEASES then (s, .extract)
          else (s, .observe)

/-- `extract_node`: store the extractor's result and terminate. -/
def extract_node (rel : ReleaseInfo) (s : AgentState) : AgentState × Node :=
  match s.last_png_bytes with
  | none => (s, .observe)
  | some _ => ({ s with extracted_release := some rel, stage := .EXTRACTED }, .done)

/-! ### The compiled graph: one step per node, runs, reachability -/

/-- The oracle values one node execution may consume. -/
structure StepOracle where
  obs : Observation
  visionAction : Action
  browser : BrowserOracle := {}
  extractResult : ReleaseInfo := {}
deriving DecidableEq, Repr

def stepNode (o : StepOracle) : Node → AgentState → AgentState × Node
  | .observe, s => observe_node o.obs s
  | .decide, s => decide_node o.visionAction s
  | .act, s => act_node o.browser s
  | .validate, s => validate_node s
  | .extract, s => extract_node o.extractResult s
  | .done, s => (s, .done)

def runFrom (start : AgentState × Node) : List StepOracle → AgentState × Node
  | [] => start
  | o :: os => runFrom (stepNode o start.2 start.1) os

/-- The initial session state built in `navigate.py` (entry node `observe`). -/
def initState (repo url : String) (maxSteps maxRetries : Nat) : AgentState :=
  { target_repo := repo, start_url := url,
    max_steps := maxSteps, max_retries_per_stage := maxRetries }

/-- A configuration the compiled graph can reach in some run, for some choice
of CLI parameters and collaborator behaviour. -/
def Reachable (c : AgentState × Node) : Prop :=
  ∃ repo url maxSteps maxRetries os,
    runFrom (initState repo url maxSteps maxRetries, Node.observe) os = c

/-! ### Concrete collaborator behaviours and runs (used by the witnesses and
counterexamples below; each run is a `runFrom` from the initial state, so the
configurations it produces are reachable by construction). -/

def pngHome : Png := { hash := "aa00", width := 1280, height := 720 }

def obsHome : Observation :=
  { url := "https://github.com", title := "GitHub", screenshot := pngHome }

def obsLogin : Observation :=
  { url := "https://github.com/login", title := "Sign in", screenshot := pngHome }

def obsSearch : Observation :=
  { url := "https://github.com/search?q=openclaw", title := "Search",
    screenshot := { hash := "bb11", width := 1280, height := 720 } }

def obsSearchX : Observation :=
  { url := "https://github.com/search?q=x", title := "Search",
    screenshot := { hash := "cc22", width := 1280, height := 720 } }

def obsRepo : Observation :=
  { url := "https://github.com/openclaw/openclaw", title := "openclaw",
    screenshot := { hash := "dd33", width := 1280, height := 720 } }

def actNoop : Action := { type := "noop", reason := "wait" }

/-- A vision reply carrying two alternative result-card bboxes. -/
def actTwoCands : Action :=
  { type := "click_candidates", reason := "two result cards",
    candidates := some [{ bbox := [400, 300, 500, 350] }, { bbox := [400, 400, 500, 450] }] }

def actClickCard : Action :=
  { type := "click", reason := "first card", bbox := some [300, 300, 400, 360] }

def actClickLink : Action :=
  { type := "click", reason := "repo page link", bbox := some [600, 400, 700, 450] }

def oracleHome : StepOracle := { obs := obsHome, visionAction := actNoop }

def oracleLogin : StepOracle := { obs := obsLogin, visionAction := actNoop }

def oracleSearchCands : StepOracle := { obs := obsSearch, visionAction := actTwoCands }

/-- Clicking in the search results lands on the repository page. -/
def oracleSearchClick : StepOracle :=
  { obs := obsSearchX, visionAction := actClickCard,
    browser := { clickResults :=
      [("https://github.com/search?q=x", "https://github.com/openclaw/openclaw")] } }

/-- On the repository page the vision model clicks a link that navigates the
browser back to the search results. -/
def oracleRepoClick : StepOracle := { obs := obsRepo, visionAction := actClickLink }

def oracleSearchNoop : StepOracle := { obs := obsSearchX, visionAction := actNoop }

/-- A run against the login page with `max_steps = 1`: after
observe/decide/act the session sits at VALIDATE with the step ceiling reached
and the login URL current. -/
def runLoginStop : AgentState × Node :=
  runFrom (initState "openclaw/openclaw" "https://github.com" 1 3, Node.observe)
    (List.replicate 3 oracleLogin)

/-- A run on an unchanging home page with `max_steps = 5`: three identical
act-cycles make the session stuck, two recovery rounds raise `retry_count`
to 2, and the fifth act leaves the session at VALIDATE with the ceiling
reached while `retry_count = 2`. -/
def runHomeStuck5 : AgentState × Node :=
  runFrom (initState "openclaw/openclaw" "https://github.com" 5 3, Node.observe)
    (List.replicate 15 oracleHome)

/-- A run on an unchanging home page with `max_steps = 3`: at the third
VALIDATE the stuck condition and the step ceiling hold simultaneously. -/
def runHomeStuck3 : AgentState × Node :=
  runFrom (initState "openclaw/openclaw" "https://github.com" 3 3, Node.observe)
    (List.replicate 11 oracleHome)

/-- A run (`max_steps = 1`) in which the first act filters a two-candidate
click, clicks the first candidate and queues the second: the session sits at
VALIDATE in SEARCH_RESULTS with a non-empty `pending_candidates` and the step
ceiling reached. -/
def runSearchCands : AgentState × Node :=
  runFrom (initState "openclaw/openclaw" "https://github.com" 1 3, Node.observe)
    (List.replicate 3 oracleSearchCands)

/-- A run in which grid exploration succeeds (stage REPO), a click on the repo
page navigates the browser back to the search results, and the next observe
leaves the session at DECIDE in stage REPO with a `/search` URL. -/
def runRepoSearchUrl : AgentState × Node :=
  runFrom (initState "openclaw/openclaw" "https://github.com" 25 3, Node.observe)
    [oracleSearchClick, oracleSearchClick, oracleSearchClick, oracleSearchClick,
     oracleRepoClick, oracleRepoClick, oracleRepoClick, oracleRepoClick, oracleSearchNoop]

/-! ### Helper lemmas about the history buffers and `assess` -/

theorem count_drop_ge [DecidableEq α] (l : List α) (k : Nat) (x : α) :
    l.count x - k ≤ (l.drop k).count x := by
  have h := List.count_append x (l.take k) (l.drop k)
  rw [List.take_append_drop] at h
  have h2 : (l.take k).count x ≤ k :=
    le_trans (List.count_le_length x (l.take k)) (l.length_take_le k)
  omega

/-- The result of a push never exceeds 6 entries. -/
theorem pushKeep_length (l : List α) (x : α) : (pushKeep 6 l x).length ≤ 6 := by
  simp only [pushKeep]
  split
  · simp only [List.length_drop]
    omega
  · omega

/-- Re-pushing the same element never lowers its repeat count in a buffer that
is within its bound. -/
theorem count_pushKeep_ge [DecidableEq α] (l : List α) (x : α) (h : l.length ≤ 6) :
    l.count x ≤ (pushKeep 6 l x).count x := by
  simp only [pushKeep]
  split
  · have hd := count_drop_ge (l ++ [x]) ((l ++ [x]).length - 6) x
    have hc : (l ++ [x]).count x = l.count x + 1 := by
      simp [List.count_append]
    have hl : (l ++ [x]).length = l.length + 1 := by simp
    omega
  · simp [List.count_append]

/-- `assess` only appends to the two history buffers; every other field of the
state it hands back is untouched. -/
theorem assessedState_eq (s : AgentState) (png : Png) :
    assessedState s png =
      { s with
        last_screenshot_hashes := pushKeep 6 s.last_screenshot_hashes png.hash,
        last_urls := if urlTruthy s.current_url then
            pushKeep 6 s.last_urls (s.current_url.getD "") else s.last_urls } := by
  simp only [assessedState, AgentState.push_hash, AgentState.push_url]
  split <;> rfl

theorem assess_state (t : Nat) (s : AgentState) (png : Png) :
    (assess t s png).state = assessedState s png := by
  simp only [assess]
  split
  · rfl
  · split <;> rfl

/-- The three shapes a `ValidationResult` can take: the max-steps stop, a
stuck recovery, or the URL heuristics — and in the last case the proposed
stage always differs from the current one. -/
theorem assess_result_cases (t : Nat) (s : AgentState) (png : Png) :
    ((assess t s png).result = { should_stop := true, reason := some "max_steps" } ∧
       s.max_steps ≤ s.step_count) ∨
    (∃ ra, (assess t s png).result = { recovery_action := some ra, reason := some "stuck" } ∧
      (ra = scrollDownRecovery ∨ ra = scrollUpRecovery ∨ ra = backRecovery)) ∨
    ((assess t s png).result.should_stop = false ∧
     (assess t s png).result.recovery_action = none ∧
     ((assess t s png).result.new_stage = none ∨
      ((assess t s png).result.new_stage = some Stage.SEARCH_RESULTS ∧ s.stage = Stage.HOME) ∨
      ((assess t s png).result.new_stage = some Stage.REPO ∧
        (s.stage = Stage.SEARCH_RESULTS ∨ s.stage = Stage.HOME)) ∨
      ((assess t s png).result.new_stage = some Stage.RELEASES ∧
        (s.stage = Stage.REPO ∨ s.stage = Stage.SEARCH_RESULTS)))) := by
  simp only [assess]
  split
  · left
    constructor
    · rfl
    · simp only [assessedState_eq] at *
      assumption
  · split
    · right; left
      refine ⟨_, rfl, ?_⟩
      split_ifs <;> simp
    · right; right
      refine ⟨?_, ?_, ?_⟩
      · split
        · split_ifs <;> rfl
        · rfl
      · split
        · split_ifs <;> rfl
        · rfl
      · split
        · split_ifs with h1 h2 h3 <;> simp_all [assessedState_eq]
        · left; rfl

theorem assess_stop_result (s : AgentState) (png : Png) (hstep : s.max_steps ≤ s.step_count) :
    (assess 3 s png).result = { should_stop := true, reason := some "max_steps" } := by
  simp only [assess]
  rw [if_pos (by simp only [assessedState_eq]; exact hstep)]

/-- VALIDATE at the step ceiling, away from the login escape hatch: the stop
flag wins, the stage is forced to DONE, and nothing else changes. -/
theorem validate_maxsteps (s : AgentState) (png : Png)
    (hpng : s.last_png_bytes = some png)
    (hstep : s.max_steps ≤ s.step_count)
    (hlogin : urlHas s.current_url "/login" = false) :
    validate_node s = ({ assessedState s png with stage := Stage.DONE }, Node.done) := by
  have hres := assess_stop_result s png hstep
  simp only [validate_node, hpng, assess_state, hres, applyStageTransition, assessedState_eq,
    hlogin]
  simp [assessedState_eq]

/-- The stuck-recovery rotation keyed by `retry_count % 3`. -/
def recoveryRotation (k : Nat) : Action :=
  if k % 3 = 0 then scrollDownRecovery
  else if k % 3 = 1 then scrollUpRecovery else backRecovery

theorem assess_stuck_result (s : AgentState) (png : Png)
    (hstuck : stuckCounts s png 3) (hstep : s.step_count < s.max_steps) :
    (assess 3 s png).result =
      { recovery_action := some (if s.retry_count % 3 = 0 then scrollDownRecovery
          else if s.retry_count % 3 = 1 then scrollUpRecovery else backRecovery),
        reason := some "stuck" } := by
  simp only [assess]
  rw [if_neg (by simp only [assessedState_eq]; omega)]
  rw [if_pos hstuck]
  simp [assessedState_eq]

/-- VALIDATE on a stuck state below both ceilings: the rotation recovery is
substituted as `last_action`, the retry counter is bumped, and control goes
back to ACT. -/
theorem validate_stuck (s : AgentState) (png : Png)
    (hpng : s.last_png_bytes = some png)
    (hstuck : stuckCounts s png 3)
    (hstep : s.step_count < s.max_steps)
    (hlogin : urlHas s.current_url "/login" = false)
    (hceil : s.retry_count + 1 ≤ s.max_retries_per_stage) :
    validate_node s = ({ assessedState s png with
        retry_count := s.retry_count + 1,
        last_action := some (recoveryRotation s.retry_count) },
      Node.act) := by
  unfold recoveryRotation
  have hres := assess_stuck_result s png hstuck hstep
  simp only [validate_node, hpng, assess_state, hres, applyStageTransition, assessedState_eq,
    hlogin]
  simp only [Bool.false_eq_true, if_false]
  rw [if_neg (by omega)]

theorem stuck_truthy (s : AgentState) (png : Png) (h : stuckCounts s png 3) :
    urlTruthy s.current_url = true := by
  rcases h with ⟨-, hu⟩
  by_cases ht : urlTruthy s.current_url = true
  · exact ht
  · simp [ht] at hu

/-- Without an intervening OBSERVE, a session that was stuck stays stuck: the
histories only receive the same hash and URL again. -/
theorem stuckCounts_next (s s' : AgentState) (png : Png)
    (hh : s'.last_screenshot_hashes = (assessedState s png).last_screenshot_hashes)
    (hu : s'.last_urls = (assessedState s png).last_urls)
    (hc : s'.current_url = s.current_url)
    (hstuck : stuckCounts s png 3) : stuckCounts s' png 3 := by
  have ht := stuck_truthy s png hstuck
  rcases hstuck with ⟨h1, h2⟩
  simp only [assessedState_eq, ht, if_true] at hh hu h1 h2
  constructor
  · simp only [assessedState_eq, hh]
    calc (3 : Nat) ≤ _ := h1
    _ ≤ _ := count_pushKeep_ge _ _ (pushKeep_length _ _)
  · simp only [assessedState_eq, hc, ht, if_true, hu]
    rw [hc] at *
    simp only [ht, if_true] at *
    calc (3 : Nat) ≤ _ := h2
    _ ≤ _ := count_pushKeep_ge _ _ (pushKeep_length _ _)

/-- Executing an action that is not a click and carries neither bbox nor
candidates (in particular any stuck-recovery action) only advances the step
counter. -/
theorem act_plain (bo : BrowserOracle) (s : AgentState) (a : Action)
    (ha : s.last_action = some a)
    (ht : a.type ≠ "click") (ht2 : a.type ≠ "click_candidates")
    (hb : a.bbox = none) (hc : a.candidates = none) :
    act_node bo s = ({ s with step_count := s.step_count + 1 }, Node.validate) := by
  simp only [act_node, ha, Option.getD_some]
  rw [if_neg (by simp [ht])]
  split
  · rw [if_neg (by simp [hc, hb, bboxTruthy, ht, ht2])]
  · rfl

theorem recovery_plain (k : Nat) :
    (recoveryRotation k).type ≠ "click" ∧ (recoveryRotation k).type ≠ "click_candidates" ∧
      (recoveryRotation k).bbox = none ∧ (recoveryRotation k).candidates = none := by
  unfold recoveryRotation
  by_cases h0 : k % 3 = 0 <;> by_cases h1 : k % 3 = 1 <;>
    simp_all [scrollDownRecovery, scrollUpRecovery, backRecovery]

/-- One full stuck round: VALIDATE substitutes the rotation recovery and
routes to ACT, ACT executes it, and the resulting state is again stuck with
the retry counter one higher. -/
theorem stuck_round (s : AgentState) (png : Png) (bo : BrowserOracle)
    (hpng : s.last_png_bytes = some png)
    (hstuck : stuckCounts s png 3)
    (hstep : s.step_count < s.max_steps)
    (hlogin : urlHas s.current_url "/login" = false)
    (hceil : s.retry_count + 1 ≤ s.max_retries_per_stage) :
    (validate_node s).2 = Node.act ∧
    (validate_node s).1.last_action = some (recoveryRotation s.retry_count) ∧
    (validate_node s).1.retry_count = s.retry_count + 1 ∧
    (act_node bo (validate_node s).1).2 = Node.validate ∧
    (act_node bo (validate_node s).1).1.last_png_bytes = some png ∧
    stuckCounts (act_node bo (validate_node s).1).1 png 3 ∧
    (act_node bo (validate_node s).1).1.step_count = s.step_count + 1 ∧
    (act_node bo (validate_node s).1).1.max_steps = s.max_steps ∧
    (act_node bo (validate_node s).1).1.retry_count = s.retry_count + 1 ∧
    (act_node bo (validate_node s).1).1.max_retries_per_stage = s.max_retries_per_stage ∧
    urlHas (act_node bo (validate_node s).1).1.current_url "/login" = false := by
  have hv := validate_stuck s png hpng hstuck hstep hlogin hceil
  obtain ⟨hnc, hnc2, hnb, hncand⟩ := recovery_plain s.retry_count
  have ha := act_plain bo (validate_node s).1 (recoveryRotation s.retry_count)
    (by rw [hv]) hnc hnc2 hnb hncand
  rw [hv] at ha ⊢
  rw [ha]
  refine ⟨rfl, rfl, rfl, rfl, ?_, ?_, ?_, ?_, ?_, ?_, ?_⟩
  · simp [assessedState_eq, hpng]
  · refine stuckCounts_next s _ png ?_ ?_ ?_ hstuck
    · simp [assessedState_eq]
    · simp [assessedState_eq]
    · simp [assessedState_eq]
  · simp [assessedState_eq]
  · simp [assessedState_eq]
  · simp [assessedState_eq]
  · simp [assessedState_eq]
  · simp only [assessedState_eq]
    exact hlogin

/-! ### Frame lemmas for the remaining nodes -/

theorem decide_frame (a : Action) (s : AgentState) :
    (decide_node a s).1.retry_count = s.retry_count ∧
    (decide_node a s).1.pending_candidates = s.pending_candidates ∧
    (decide_node a s).1.step_count = s.step_count ∧
    (decide_node a s).1.extracted_release = s.extracted_release := by
  simp only [decide_node]
  split <;> split <;> split <;> simp_all

theorem decide_stage_if (a : Action) (s : AgentState) :
    (decide_node a s).1.stage =
      (if urlHas s.current_url "/search" then Stage.SEARCH_RESULTS else s.stage) := by
  simp only [decide_node]
  split
  · split <;> split <;> rfl
  · split <;> split <;> rfl

theorem act_retry (bo : BrowserOracle) (s : AgentState) :
    (act_node bo s).1.retry_count = s.retry_count ∨
    (act_node bo s).1.retry_count = s.retry_count + 1 := by
  simp only [act_node]
  repeat' split
  all_goals first | (left; rfl) | (right; rfl)

theorem extract_retry (rel : ReleaseInfo) (s : AgentState) :
    (extract_node rel s).1.retry_count = s.retry_count := by
  simp only [extract_node]
  split <;> rfl

theorem act_next (bo : BrowserOracle) (s : AgentState) :
    (act_node bo s).2 = Node.validate ∨ (act_node bo s).2 = Node.done := by
  simp only [act_node]
  repeat' split
  all_goals simp

/-- The only place in VALIDATE that can zero a positive retry counter is the
stage-transition block, so a zero retry count afterwards means the counter was
already zero or the stage just changed. -/
theorem validate_retry_zero (s : AgentState)
    (h : (validate_node s).1.retry_count = 0) :
    s.retry_count = 0 ∨ (validate_node s).1.stage ≠ s.stage := by
  cases hp : s.last_png_bytes with
  | none =>
    left
    simpa [validate_node, hp] using h
  | some png =>
    rcases assess_result_cases 3 s png with ⟨hres, -⟩ | ⟨ra, hres, -⟩ | ⟨hstop, hrec, hns⟩
    · -- max-steps stop: retry untouched
      simp only [validate_node, hp, assess_state, hres, applyStageTransition] at h ⊢
      split at h <;> left <;> simpa [assessedState_eq] using h
    · -- stuck recovery: retry is incremented, so it cannot be 0
      simp only [validate_node, hp, assess_state, hres, applyStageTransition] at h ⊢
      split at h
      · left; simpa [assessedState_eq] using h
      · simp only [Bool.false_eq_true, if_false] at h ⊢
        split at h <;> simp [assessedState_eq] at h
    · -- heuristic branch
      rcases hns with hnone | ⟨hsome, hstage⟩ | ⟨hsome, hstage⟩ | ⟨hsome, hstage⟩
      · simp only [validate_node, hp, assess_state, applyStageTransition, hnone, hstop,
          hrec] at h ⊢
        split at h
        · left; simpa [assessedState_eq] using h
        · simp only [Bool.false_eq_true, if_false] at h ⊢
          split at h
          · split at h
            · left; simpa [assessedState_eq] using h
            · simp [assessedState_eq] at h
          · split at h <;> (left; simpa [assessedState_eq] using h)
      · -- SEARCH_RESULTS transition from HOME
        simp only [validate_node, hp, assess_state, applyStageTransition, hsome, hstop,
          hrec] at h ⊢
        split at h
        · left; simpa [assessedState_eq] using h
        · simp only [Bool.false_eq_true, if_false] at h ⊢
          split at h
          · -- failed-navigation branch: pending was cleared, the refine bump fires
            simp [assessedState_eq] at h
          · right
            (repeat' split) <;> simp_all [assessedState_eq]
      · -- REPO transition from SEARCH_RESULTS or HOME
        simp only [validate_node, hp, assess_state, applyStageTransition, hsome, hstop,
          hrec] at h ⊢
        split at h
        · left; simpa [assessedState_eq] using h
        · simp only [Bool.false_eq_true, if_false] at h ⊢
          split at h
          · simp [assessedState_eq] at h
          · right
            rcases hstage with hst | hst <;> (repeat' split) <;> simp_all [assessedState_eq]
      · -- RELEASES transition from REPO or SEARCH_RESULTS
        simp only [validate_node, hp, assess_state, applyStageTransition, hsome, hstop,
          hrec] at h ⊢
        split at h
        · left; simpa [assessedState_eq] using h
        · simp only [Bool.false_eq_true, if_false] at h ⊢
          split at h
          · simp [assessedState_eq] at h
          · right
            rcases hstage with hst | hst <;> (repeat' split) <;> simp_all [assessedState_eq]

/-! ### The pending-candidates invariant.

`pendingOk` and `actEntryOk` together say that every queued bbox is non-empty
and that whenever ACT runs in SEARCH_RESULTS with a non-empty queue, the last
decided action is either a bbox click (so ACT takes the grid branch) or not a
click at all (so the candidate-filter block is skipped).  Both hold in every
reachable configuration, which is what makes the `remaining`-assignment in
`act_node` harmless for an already-populated queue. -/

def pendingOk (s : AgentState) : Prop :=
  ∀ c ∈ s.pending_candidates, c.bbox ≠ []

def actEntryOk (s : AgentState) : Prop :=
  s.stage = Stage.SEARCH_RESULTS → s.pending_candidates ≠ [] →
    ∃ a, s.last_action = some a ∧
      ((a.type = "click" ∧ bboxTruthy a.bbox = true) ∨
       (a.type ≠ "click" ∧ a.type ≠ "click_candidates"))

def Inv (c : AgentState × Node) : Prop :=
  pendingOk c.1 ∧ (c.2 = Node.act → actEntryOk c.1)

theorem Inv_init (repo url : String) (ms mr : Nat) :
    Inv (initState repo url ms mr, Node.observe) := by
  constructor
  · intro c hc
    simp [initState] at hc
  · intro hn
    simp at hn

theorem inv_step_decide (o : StepOracle) (s : AgentState)
    (hpend : pendingOk s) :
    Inv (stepNode o Node.decide s) := by
  simp only [Inv, stepNode]
  constructor
  · intro c hc
    rw [(decide_frame o.visionAction s).2.1] at hc
    exact hpend c hc
  · intro _ hstage hpending
    rw [(decide_frame o.visionAction s).2.1] at hpending
    cases hpc : s.pending_candidates with
    | nil => exact absurd hpc hpending
    | cons c rest =>
      have hcb : c.bbox ≠ [] := hpend c (by rw [hpc]; exact List.mem_cons_self c rest)
      have hbt : bboxTruthy (some c.bbox) = true := by
        cases hcb2 : c.bbox with
        | nil => exact absurd hcb2 hcb
        | cons x xs => rfl
      refine ⟨{ type := "click", reason := "pending_candidate", bbox := some c.bbox }, ?_,
        Or.inl ⟨rfl, hbt⟩⟩
      cases hu : urlHas s.current_url "/search" with
      | true =>
        simp only [decide_node, hu, if_true, hpc]
        split <;> rfl
      | false =>
        have hss : s.stage = Stage.SEARCH_RESULTS := by
          have hst := decide_stage_if o.visionAction s
          rw [hu] at hst
          simp only [Bool.false_eq_true, if_false] at hst
          rw [← hst]
          exact hstage
        simp only [decide_node, hu, Bool.false_eq_true, if_false, hpc, hss]
        split <;> rfl

theorem bboxTruthy_getD (ob : Option (List Int)) (h : bboxTruthy ob = true) :
    ob.getD [] ≠ [] := by
  cases ob with
  | none => simp [bboxTruthy] at h
  | some l =>
    cases l with
    | nil => simp [bboxTruthy] at h
    | cons x xs => simp

theorem mem_fromCands_ne_nil (oc : Option (List CandidateBBox)) (c : Candidate)
    (h : c ∈ (match oc with
      | some (c0 :: cs) =>
        ((c0 :: cs).filter fun cb : CandidateBBox => cb.bbox.length = 4).map
          fun cb : CandidateBBox =>
            ({ bbox := cb.bbox, confidence := cb.confidence, reason := cb.reason } : Candidate)
      | _ => ([] : List Candidate))) : c.bbox ≠ [] := by
  revert h
  split
  · intro h
    simp only [List.mem_map, List.mem_filter] at h
    obtain ⟨cb, ⟨-, hlen⟩, rfl⟩ := h
    simp only [decide_eq_true_eq] at hlen
    simp only [ne_eq]
    intro hnil
    rw [hnil] at hlen
    simp at hlen
  · intro h
    simp at h

/-- Under the two ACT-entry invariants, one ACT step either leaves the pending
queue untouched or replaces a previously empty queue, and every queued bbox
stays non-empty. -/
theorem act_pending_inv (bo : BrowserOracle) (s : AgentState)
    (hpend : pendingOk s) (hae : actEntryOk s) :
    ((act_node bo s).1.pending_candidates = s.pending_candidates ∨
      s.pending_candidates = []) ∧
    pendingOk (act_node bo s).1 := by
  simp only [act_node]
  split
  · -- grid-exploration branch: pending untouched
    constructor
    · left
      split <;> rfl
    · intro c hc
      refine hpend c ?_
      revert hc
      split <;> simp
  · split
    · -- the candidate-filter block
      rename_i hnotgrid hsearch
      cases hbt : bboxTruthy (s.last_action.getD noopMissing).bbox with
      | false =>
        simp only [hbt, Bool.false_eq_true, if_false, List.append_nil]
        split
        · rename_i hcands
          split
          · -- no candidate passed
            constructor
            · left
              split <;> rfl
            · intro c hc
              refine hpend c ?_
              revert hc
              split <;> simp
          · -- a candidate was chosen
            have hempty : s.pending_candidates = [] := by
              by_cases hp : s.pending_candidates = []
              · exact hp
              · obtain ⟨a, ha, hcase⟩ := hae hsearch.1 hp
                rw [ha] at hnotgrid hcands hbt
                simp only [Option.getD_some] at hnotgrid hcands hbt
                rcases hcase with ⟨ht, hb⟩ | ⟨ht, ht2⟩
                · rw [hb] at hbt
                  simp at hbt
                · rcases hcands.2 with h | h
                  · exact absurd h ht
                  · exact absurd h ht2
            refine ⟨Or.inr hempty, ?_⟩
            intro c hc
            simp only [List.mem_filter] at hc
            exact mem_fromCands_ne_nil _ c hc.1
        · constructor
          · left; rfl
          · intro c hc
            exact hpend c hc
      | true =>
        simp only [hbt, if_true]
        split
        · rename_i hcands
          split
          · constructor
            · left
              split <;> rfl
            · intro c hc
              refine hpend c ?_
              revert hc
              split <;> simp
          · have hempty : s.pending_candidates = [] := by
              by_cases hp : s.pending_candidates = []
              · exact hp
              · obtain ⟨a, ha, hcase⟩ := hae hsearch.1 hp
                rw [ha] at hnotgrid hcands hbt
                simp only [Option.getD_some] at hnotgrid hcands hbt
                rcases hcase with ⟨ht, hb⟩ | ⟨ht, ht2⟩
                · exact absurd ⟨hsearch.1, ht, hb⟩ hnotgrid
                · rcases hcands.2 with h | h
                  · exact absurd h ht
                  · exact absurd h ht2
            refine ⟨Or.inr hempty, ?_⟩
            intro c hc
            simp only [List.mem_filter] at hc
            have hc2 := hc.1
            rw [List.mem_append] at hc2
            rcases hc2 with hin | hin
            · exact mem_fromCands_ne_nil _ c hin
            · simp only [List.mem_singleton] at hin
              subst hin
              exact bboxTruthy_getD _ hbt
        · constructor
          · left; rfl
          · intro c hc
            exact hpend c hc
    · -- outside SEARCH_RESULTS: plain execution
      constructor
      · left; rfl
      · intro c hc
        exact hpend c hc

/-- What one VALIDATE step can do to the pending queue: leave it alone, pop
its head in the failed-navigation branch, or clear it on a stage transition —
and the ACT-entry invariant is re-established whenever it routes to ACT. -/
theorem validate_step_facts (s : AgentState) (hpend : pendingOk s) :
    ((validate_node s).1.pending_candidates = s.pending_candidates ∨
      ((validate_node s).1.pending_candidates = s.pending_candidates.tail ∧
        s.pending_candidates ≠ []) ∨
      (validate_node s).1.pending_candidates = []) ∧
    pendingOk (validate_node s).1 ∧
    ((validate_node s).2 = Node.act → actEntryOk (validate_node s).1) := by
  cases hp : s.last_png_bytes with
  | none =>
    refine ⟨Or.inl ?_, ?_, ?_⟩ <;> simp [validate_node, hp]
    · exact hpend
  | some png =>
    rcases assess_result_cases 3 s png with ⟨hres, -⟩ | ⟨ra, hres, hra⟩ | ⟨hstop, hrec, hns⟩
    · -- max-steps stop
      simp only [validate_node, hp, assess_state, hres, applyStageTransition]
      split
      · exact ⟨Or.inl (by simp [assessedState_eq]),
          fun c hc => hpend c (by simpa [assessedState_eq] using hc),
          fun hn => by simp at hn⟩
      · exact ⟨Or.inl (by simp [assessedState_eq]),
          fun c hc => hpend c (by simpa [assessedState_eq] using hc),
          fun hn => by simp at hn⟩
    · -- stuck recovery
      simp only [validate_node, hp, assess_state, hres, applyStageTransition]
      split
      · exact ⟨Or.inl (by simp [assessedState_eq]),
          fun c hc => hpend c (by simpa [assessedState_eq] using hc),
          fun hn => by simp at hn⟩
      · simp only [Bool.false_eq_true, if_false]
        split
        · exact ⟨Or.inl (by simp [assessedState_eq]),
            fun c hc => hpend c (by simpa [assessedState_eq] using hc),
            fun hn => by simp at hn⟩
        · refine ⟨Or.inl (by simp [assessedState_eq]),
            fun c hc => hpend c (by simpa [assessedState_eq] using hc), ?_⟩
          intro _ _ _
          refine ⟨ra, by simp, ?_⟩
          rcases hra with h | h | h <;> subst h <;>
            simp [scrollDownRecovery, scrollUpRecovery, backRecovery]
    · -- heuristic branch
      rcases hns with hnone | ⟨hsome, -⟩ | ⟨hsome, -⟩ | ⟨hsome, -⟩
      · -- no stage transition
        simp only [validate_node, hp, assess_state, applyStageTransition, hnone, hstop, hrec]
        split
        · exact ⟨Or.inl (by simp [assessedState_eq]),
            fun c hc => hpend c (by simpa [assessedState_eq] using hc),
            fun hn => by simp at hn⟩
        · simp only [Bool.false_eq_true, if_false]
          split
          · -- failed-navigation branch
            split
            · -- pop the next pending candidate
              rename_i nextCand rest hmatch
              simp only [assessedState_eq] at hmatch
              have hne : nextCand.bbox ≠ [] := by
                refine hpend nextCand ?_
                rw [hmatch]
                exact List.mem_cons_self _ _
              refine ⟨Or.inr (Or.inl ⟨?_, ?_⟩), ?_, ?_⟩
              · simp [assessedState_eq, hmatch]
              · rw [hmatch]
                simp
              · intro c hc
                simp only [assessedState_eq] at hc
                refine hpend c ?_
                rw [hmatch]
                right
                simpa using hc
              · intro _ _ _
                refine ⟨{ type := "click", reason := "next_candidate", bbox := some nextCand.bbox }, by simp, Or.inl ⟨rfl, ?_⟩⟩
                cases hb : nextCand.bbox with
                | nil => exact absurd hb hne
                | cons x xs => rfl
            · -- no pending candidate: refine bump, back to OBSERVE
              exact ⟨Or.inl (by simp [assessedState_eq]),
                fun c hc => hpend c (by simpa [assessedState_eq] using hc),
                fun hn => by simp at hn⟩
          · split
            · exact ⟨Or.inl (by simp [assessedState_eq]),
                fun c hc => hpend c (by simpa [assessedState_eq] using hc),
                fun hn => by simp at hn⟩
            · exact ⟨Or.inl (by simp [assessedState_eq]),
                fun c hc => hpend c (by simpa [assessedState_eq] using hc),
                fun hn => by simp at hn⟩
      all_goals
        simp only [validate_node, hp, assess_state, applyStageTransition, hsome, hstop, hrec]
      all_goals
        split
        · exact ⟨Or.inl (by simp [assessedState_eq]),
            fun c hc => hpend c (by simpa [assessedState_eq] using hc),
            fun hn => by simp at hn⟩
        · simp only [Bool.false_eq_true, if_false]
          split
          · refine ⟨Or.inr (Or.inr ?_), ?_, ?_⟩
            · simp [assessedState_eq]
            · intro c hc
              simp [assessedState_eq] at hc
            · intro hn
              simp at hn
          · split
            · refine ⟨Or.inr (Or.inr ?_), ?_, ?_⟩
              · simp [assessedState_eq]
              · intro c hc
                simp [assessedState_eq] at hc
              · intro hn
                simp at hn
            · refine ⟨Or.inr (Or.inr ?_), ?_, ?_⟩
              · simp [assessedState_eq]
              · intro c hc
                simp [assessedState_eq] at hc
              · intro hn
                simp at hn


theorem Inv_step (o : StepOracle) (n : Node) (s : AgentState) (h : Inv (s, n)) :
    Inv (stepNode o n s) := by
  obtain ⟨hpend, hact⟩ := h
  cases n with
  | observe =>
    exact ⟨fun c hc => hpend c hc, fun hn => by simp [stepNode, observe_node] at hn⟩
  | decide => exact inv_step_decide o s hpend
  | act =>
    have h2 := act_pending_inv o.browser s hpend (hact rfl)
    refine ⟨h2.2, ?_⟩
    intro hn
    rcases act_next o.browser s with he | he <;> rw [stepNode] at hn <;> rw [he] at hn <;>
      simp at hn
  | validate =>
    have h3 := validate_step_facts s hpend
    exact ⟨h3.2.1, h3.2.2⟩
  | extract =>
    refine ⟨?_, ?_⟩
    · intro c hc
      refine hpend c ?_
      revert hc
      simp only [stepNode, extract_node]
      split <;> simp
    · intro hn
      rw [stepNode] at hn
      revert hn
      simp only [extract_node]
      split <;> simp
  | done =>
    exact ⟨hpend, fun hn => by simp [stepNode] at hn⟩

theorem runFrom_inv (os : List StepOracle) (start : AgentState × Node) (h : Inv start) :
    Inv (runFrom start os) := by
  induction os generalizing start with
  | nil => exact h
  | cons o os ih => exact ih _ (Inv_step o start.2 start.1 h)

theorem reachable_inv (c : AgentState × Node) (h : Reachable c) : Inv c := by
  obtain ⟨r, u, ms, mr, os, rfl⟩ := h
  exact runFrom_inv os _ (Inv_init r u ms mr)

theorem decide_head_reuse (a : Action) (s : AgentState) (c : Candidate) (rest : List Candidate)
    (hstage : s.stage = Stage.SEARCH_RESULTS) (hpc : s.pending_candidates = c :: rest) :
    (decide_node a s).1.last_action =
      some { type := "click", reason := "pending_candidate", bbox := some c.bbox } ∧
    (decide_node a s).1.pending_candidates = c :: rest := by
  constructor
  · cases hu : urlHas s.current_url "/search" with
    | true =>
      simp only [decide_node, hu, if_true, hpc]
      split <;> rfl
    | false =>
      simp only [decide_node, hu, Bool.false_eq_true, if_false, hpc, hstage]
      split <;> rfl
  · rw [(decide_frame a s).2.1, hpc]

theorem clamp_keeps_small (lo w u v : Int) (h : u - v ≤ 20) :
    max lo (min u w) - max lo (min v w) ≤ 20 := by
  rcases le_total u v with h' | h' <;>
    rcases le_total u w with h2 | h2 <;>
    rcases le_total v w with h3 | h3 <;>
    simp [max_def, min_def] <;> split_ifs <;> omega

/-! ## The claims -/

/-- The vision payload of claim C4: `{"type": "bbox", "coords": [10,10,50,30]}`. -/
def bboxCoordsPayload : JObj :=
  [("type", .jstr "bbox"),
   ("coords", .jlist [.jint 10, .jint 10, .jint 50, .jint 30])]

/-- The same payload with the `reason` field the `Action` schema requires. -/
def bboxCoordsPayloadReason : JObj :=
  [("type", .jstr "bbox"), ("reason", .jstr "target card"),
   ("coords", .jlist [.jint 10, .jint 10, .jint 50, .jint 30])]

/-- C4, counterexample: on the payload `{"type":"bbox","coords":[10,10,50,30]}`
the action path raises a decode error (`none`), because pydantic's `Action`
model requires the `reason` field and the payload has none — even though the
normalizer has already rewritten `type` to `"click"`. -/
theorem C4_normalizer_counterexample :
    call_action bboxCoordsPayload = none ∧
    jget (normalize_action_payload bboxCoordsPayload) "type" = some (JVal.jstr "click") :=
  ⟨rfl, rfl⟩

/-- C4, amended: the normalizer itself maps the payload to `type = "click"`
with `bbox = [10,10,50,30]`, but schema validation then fails on the missing
required `reason` field; with any `reason` string present the action path
yields the well-formed click Action the claim describes. -/
theorem C4_normalizer_bbox_alias :
    jget (normalize_action_payload bboxCoordsPayload) "type" = some (JVal.jstr "click") ∧
    jget (normalize_action_payload bboxCoordsPayload) "bbox" =
      some (JVal.jlist [.jint 10, .jint 10, .jint 50, .jint 30]) ∧
    call_action bboxCoordsPayload = none ∧
    call_action bboxCoordsPayloadReason =
      some { type := "click", reason := "target card", bbox := some [10, 10, 50, 30] } :=
  ⟨rfl, rfl, rfl, rfl⟩

/-- C5: whenever the geometric gate accepts a bbox on a `W × H` image, the
bbox is at least 5px wide and 5px tall and its centre lies in the central
column — at least `0.16·W` and at most `0.82·W` horizontally, and at least
`0.10·H` vertically (equivalently, any centre in the top-10%, left-16% or
right-18% band is rejected). -/
theorem C5_filter_geometry (x1 y1 x2 y2 W H : Int) (hW : 0 < W) (hH : 0 < H)
    (hacc : bbox_in_valid_column x1 y1 x2 y2 W H = true) :
    5 ≤ x2 - x1 ∧ 5 ≤ y2 - y1 ∧
      (16 / 100 : ℚ) * W ≤ ((x1 : ℚ) + (x2 : ℚ)) / 2 ∧
      ((x1 : ℚ) + (x2 : ℚ)) / 2 ≤ (82 / 100 : ℚ) * W ∧
      (10 / 100 : ℚ) * H ≤ ((y1 : ℚ) + (y2 : ℚ)) / 2 := by
  simp only [bbox_in_valid_column] at hacc
  split_ifs at hacc with h1 h2 h3 h4 h5
  push_neg at h1 h2 h3 h4 h5
  have h3' : (10 : ℚ) * (H : ℚ) ≤ 50 * ((y1 : ℚ) + (y2 : ℚ)) := by exact_mod_cast h3
  have h4' : (16 : ℚ) * (W : ℚ) ≤ 50 * ((x1 : ℚ) + (x2 : ℚ)) := by exact_mod_cast h4
  have h5' : 50 * ((x1 : ℚ) + (x2 : ℚ)) ≤ (82 : ℚ) * (W : ℚ) := by exact_mod_cast h5
  exact ⟨by omega, by omega, by linarith, by linarith, by linarith⟩

/-- Witness for C5 at an accepted concrete bbox on a 1280×720 screenshot. -/
theorem C5_filter_geometry_witness :
    (0 : Int) < 1280 ∧ (0 : Int) < 720 ∧
    bbox_in_valid_column 300 300 400 360 1280 720 = true ∧
    (5 ≤ (400 : Int) - 300 ∧ 5 ≤ (360 : Int) - 300 ∧
      (16 / 100 : ℚ) * ((1280 : Int) : ℚ) ≤ (((300 : Int) : ℚ) + ((400 : Int) : ℚ)) / 2 ∧
      (((300 : Int) : ℚ) + ((400 : Int) : ℚ)) / 2 ≤ (82 / 100 : ℚ) * ((1280 : Int) : ℚ) ∧
      (10 / 100 : ℚ) * ((720 : Int) : ℚ) ≤ (((300 : Int) : ℚ) + ((360 : Int) : ℚ)) / 2) :=
  ⟨by decide, by decide, by decide,
    C5_filter_geometry 300 300 400 360 1280 720 (by decide) (by decide) (by decide)⟩

/-- C7, amended: DECIDE force-updates the stage to SEARCH_RESULTS exactly when
the current URL contains `/search` — with no restriction on the current stage.
In particular the update does happen whenever the URL matches and the stage is
HOME, but a non-HOME session with a `/search` URL is re-staged as well (see
the counterexample for the original claim's "only from HOME" half). -/
theorem C7_search_restage (a : Action) (s : AgentState) :
    (decide_node a s).1.stage =
      (if urlHas s.current_url "/search" then Stage.SEARCH_RESULTS else s.stage) :=
  decide_stage_if a s

/-- C7, counterexample: a reachable session sitting at DECIDE in stage REPO
whose current URL contains `/search` (the browser navigated back to the search
results) is re-staged to SEARCH_RESULTS, contradicting the claim's "a session
whose stage is not HOME is not re-staged". -/
theorem C7_restage_counterexample :
    runRepoSearchUrl.2 = Node.decide ∧
    runRepoSearchUrl.1.stage = Stage.REPO ∧
    urlHas runRepoSearchUrl.1.current_url "/search" = true ∧
    (decide_node actNoop runRepoSearchUrl.1).1.stage = Stage.SEARCH_RESULTS := by
  decide

/-- C8: when the input region is at most 20px wide or at most 20px tall, the
grid-exploration fallback reports failure immediately and clicks nothing (the
viewport clamp can only shrink the region, so the degeneracy test fires). -/
theorem C8_degenerate_region (bo : BrowserOracle) (x1 y1 x2 y2 : Int) (repo : String)
    (hsmall : x2 - x1 ≤ 20 ∨ y2 - y1 ≤ 20) :
    explore_click_points_multi bo x1 y1 x2 y2 repo = (false, []) := by
  have hcond : max 220 (min x2 bo.viewportW) ≤ max 220 (min x1 bo.viewportW) + 20 ∨
      max 0 (min y2 bo.viewportH) ≤ max 0 (min y1 bo.viewportH) + 20 := by
    rcases hsmall with h | h
    · left
      have := clamp_keeps_small 220 bo.viewportW x2 x1 h
      omega
    · right
      have := clamp_keeps_small 0 bo.viewportH y2 y1 h
      omega
  simp only [explore_click_points_multi, clamp_bbox_to_viewport]
  rw [if_pos hcond]

/-- Witness for C8 on a 10px-wide region. -/
theorem C8_degenerate_region_witness :
    ((10 : Int) - 0 ≤ 20 ∨ (300 : Int) - 0 ≤ 20) ∧
    explore_click_points_multi {} 0 0 10 300 "openclaw/openclaw" = (false, []) :=
  ⟨Or.inl (by decide),
    C8_degenerate_region {} 0 0 10 300 "openclaw/openclaw" (Or.inl (by decide))⟩

/-- C10: for any region more than 20px in both dimensions and any grid shape,
the point generator emits at most 10 points and every point keeps a 4px margin
inside the region. -/
theorem C10_grid_bounds (x1 y1 x2 y2 : Int) (xs ys : Nat)
    (hw : x1 + 20 < x2) (hh : y1 + 20 < y2) :
    (grid_points x1 y1 x2 y2 xs ys).length ≤ 10 ∧
    ∀ p ∈ grid_points x1 y1 x2 y2 xs ys,
      x1 + 4 ≤ p.1 ∧ p.1 ≤ x2 - 4 ∧ y1 + 4 ≤ p.2 ∧ p.2 ≤ y2 - 4 := by
  constructor
  · simp only [grid_points]
    exact List.length_take_le 10 _
  · intro p hp
    simp only [grid_points] at hp
    have hp' := List.mem_of_mem_take hp
    simp only [List.mem_flatten, List.mem_map, List.mem_range] at hp'
    obtain ⟨row, ⟨j, hj, hrow⟩, hpin⟩ := hp'
    subst hrow
    simp only [List.mem_map, List.mem_range] at hpin
    obtain ⟨i, hi, hpeq⟩ := hpin
    subst hpeq
    refine ⟨?_, ?_, ?_, ?_⟩
    · exact le_min (le_max_right _ _) (by omega)
    · exact min_le_right _ _
    · exact le_min (le_max_right _ _) (by omega)
    · exact min_le_right _ _

/-- Witness for C10 on a 100×80 region with the 3×2 grid of round A. -/
theorem C10_grid_bounds_witness :
    (0 : Int) + 20 < 100 ∧ (0 : Int) + 20 < 80 ∧
    (grid_points 0 0 100 80 3 2).length ≤ 10 :=
  ⟨by decide, by decide, (C10_grid_bounds 0 0 100 80 3 2 (by decide) (by decide)).1⟩

/-- A state at VALIDATE with the step ceiling reached, away from the login
page (witness input for C1 and C3). -/
def maxedWitnessState : AgentState :=
  { last_png_bytes := some pngHome, step_count := 25 }

/-- A stuck state at VALIDATE: pushing the current hash and URL once more
makes both repeat counts reach 3 (witness input for C6). -/
def stuckWitnessState : AgentState :=
  { current_url := some "https://github.com",
    last_png_bytes := some pngHome,
    last_urls := ["https://github.com", "https://github.com"],
    last_screenshot_hashes := ["aa00", "aa00"] }

/-- C1, amended: if a session reaches VALIDATE with `step_count` at the
`max_steps` ceiling before any RELEASES-stage extraction and its current URL
does not contain `/login`, the run terminates right there: `assess` raises
`should_stop`, VALIDATE routes to END with stage DONE, and
`extracted_release` is still `null`.  The original claim's "whatever the
current URL is" fails because the login escape hatch is checked before the
stop flag (see the counterexample). -/
theorem C1_maxsteps_termination (s : AgentState) (png : Png)
    (hpng : s.last_png_bytes = some png)
    (hstep : s.max_steps ≤ s.step_count)
    (hlogin : urlHas s.current_url "/login" = false)
    (hrel : s.extracted_release = none) :
    (assess 3 s png).result.should_stop = true ∧
    (validate_node s).2 = Node.done ∧
    (validate_node s).1.stage = Stage.DONE ∧
    (validate_node s).1.extracted_release = none := by
  have hv := validate_maxsteps s png hpng hstep hlogin
  rw [hv]
  refine ⟨by rw [assess_stop_result s png hstep], rfl, rfl, ?_⟩
  simp [assessedState_eq, hrel]

/-- Witness for C1 at a concrete maxed-out state. -/
theorem C1_maxsteps_termination_witness :
    maxedWitnessState.last_png_bytes = some pngHome ∧
    maxedWitnessState.max_steps ≤ maxedWitnessState.step_count ∧
    urlHas maxedWitnessState.current_url "/login" = false ∧
    maxedWitnessState.extracted_release = none ∧
    ((assess 3 maxedWitnessState pngHome).result.should_stop = true ∧
      (validate_node maxedWitnessState).2 = Node.done ∧
      (validate_node maxedWitnessState).1.stage = Stage.DONE ∧
      (validate_node maxedWitnessState).1.extracted_release = none) :=
  ⟨rfl, by decide, rfl, rfl,
    C1_maxsteps_termination maxedWitnessState pngHome rfl (by decide) rfl rfl⟩

/-- C1, counterexample: a reachable session that reaches the step ceiling on
the login page.  `assess` does flag `should_stop`, but VALIDATE checks the
login escape hatch first and loops back to OBSERVE with the stage unchanged —
the run does not terminate at that validation, contradicting the claim's
"whatever the current URL is". -/
theorem C1_login_counterexample :
    runLoginStop.2 = Node.validate ∧
    runLoginStop.1.max_steps ≤ runLoginStop.1.step_count ∧
    runLoginStop.1.extracted_release = none ∧
    runLoginStop.1.last_png_bytes = some pngHome ∧
    (assess 3 runLoginStop.1 pngHome).result.should_stop = true ∧
    (validate_node runLoginStop.1).2 = Node.observe ∧
    (validate_node runLoginStop.1).1.stage = Stage.HOME := by
  decide

/-- C2, amended: `retry_count` is reset to 0 only together with a stage
change — no graph node zeroes a positive counter while leaving the stage
alone — and the URL-heuristic stage transitions applied by VALIDATE (whose
proposed stage always differs from the current one) do reset it.  The
original claim's converse half fails: the forced transitions (ACT's
grid-success advance to REPO and the forced DONE on the step or retry
ceilings) change the stage while leaving a positive `retry_count` in place
(see the counterexample). -/
theorem C2_retry_reset :
    (∀ (o : StepOracle) (n : Node) (s : AgentState),
        (stepNode o n s).1.retry_count = 0 →
        s.retry_count = 0 ∨ (stepNode o n s).1.stage ≠ s.stage) ∧
    (∀ (r : ValidationResult) (s : AgentState), r.new_stage.isSome = true →
        (applyStageTransition r s).retry_count = 0) ∧
    (∀ (t : Nat) (s : AgentState) (png : Png) (st : Stage),
        (assess t s png).result.new_stage = some st → st ≠ s.stage) := by
  refine ⟨?_, ?_, ?_⟩
  · intro o n s h
    cases n with
    | observe => exact Or.inl h
    | decide =>
      simp only [stepNode] at h
      rw [(decide_frame o.visionAction s).1] at h
      exact Or.inl h
    | act =>
      simp only [stepNode] at h
      rcases act_retry o.browser s with he | he
      · rw [he] at h
        exact Or.inl h
      · rw [he] at h
        omega
    | validate =>
      simp only [stepNode] at h ⊢
      exact validate_retry_zero s h
    | extract =>
      simp only [stepNode] at h
      rw [extract_retry] at h
      exact Or.inl h
    | done => exact Or.inl h
  · intro r s hr
    simp only [applyStageTransition]
    cases hns : r.new_stage with
    | none => rw [hns] at hr; simp at hr
    | some st => rfl
  · intro t s png st hsome
    rcases assess_result_cases t s png with ⟨hres, -⟩ | ⟨ra, hres, -⟩ | ⟨-, -, hns⟩
    · rw [hres] at hsome
      simp at hsome
    · rw [hres] at hsome
      simp at hsome
    · rcases hns with hnone | ⟨h1, h2⟩ | ⟨h1, h2⟩ | ⟨h1, h2⟩
      · rw [hnone] at hsome
        simp at hsome
      · rw [h1] at hsome
        have hst := Option.some.inj hsome
        subst hst
        rw [h2]
        simp
      · rw [h1] at hsome
        have hst := Option.some.inj hsome
        subst hst
        rcases h2 with h2 | h2 <;> rw [h2] <;> simp
      · rw [h1] at hsome
        have hst := Option.some.inj hsome
        subst hst
        rcases h2 with h2 | h2 <;> rw [h2] <;> simp

/-- Witness for C2 at concrete inputs. -/
theorem C2_retry_reset_witness :
    ((initState "openclaw/openclaw" "https://github.com" 25 3).retry_count = 0 ∨
      (stepNode oracleHome Node.observe
        (initState "openclaw/openclaw" "https://github.com" 25 3)).1.stage ≠
        (initState "openclaw/openclaw" "https://github.com" 25 3).stage) ∧
    (({ new_stage := some Stage.REPO } : ValidationResult).new_stage.isSome = true) ∧
    (applyStageTransition { new_stage := some Stage.REPO }
      (initState "openclaw/openclaw" "https://github.com" 25 3)).retry_count = 0 :=
  ⟨C2_retry_reset.1 oracleHome Node.observe _ (by decide), by decide,
    C2_retry_reset.2.1 _ _ (by decide)⟩

/-- C2, counterexample: a reachable run (unchanging home page, `max_steps`
5) in which two stuck-recovery rounds leave `retry_count = 2`; the fifth
validation then hits the step ceiling and forces the stage from HOME to DONE
while `retry_count` stays 2 — a stage change that does not reset the counter
to 0. -/
theorem C2_retry_counterexample :
    runHomeStuck5.2 = Node.validate ∧
    runHomeStuck5.1.stage = Stage.HOME ∧
    runHomeStuck5.1.retry_count = 2 ∧
    (stepNode oracleHome Node.validate runHomeStuck5.1).1.stage = Stage.DONE ∧
    (stepNode oracleHome Node.validate runHomeStuck5.1).1.retry_count = 2 := by
  decide

/-- C3, amended: `pending_candidates` is cleared by the URL-heuristic stage
transitions that VALIDATE applies, but the forced transitions do not clear
it: in particular when the step ceiling forces stage DONE, the queue is
carried over unchanged (see the counterexample for a reachable stage change
that leaves the queue non-empty). -/
theorem C3_pending_cleared :
    (∀ (r : ValidationResult) (s : AgentState), r.new_stage.isSome = true →
        (applyStageTransition r s).pending_candidates = []) ∧
    (∀ (s : AgentState) (png : Png),
        s.last_png_bytes = some png →
        s.max_steps ≤ s.step_count →
        urlHas s.current_url "/login" = false →
        (validate_node s).1.stage = Stage.DONE ∧
        (validate_node s).1.pending_candidates = s.pending_candidates) := by
  refine ⟨?_, ?_⟩
  · intro r s hr
    simp only [applyStageTransition]
    cases hns : r.new_stage with
    | none => rw [hns] at hr; simp at hr
    | some st => rfl
  · intro s png hpng hstep hlogin
    have hv := validate_maxsteps s png hpng hstep hlogin
    rw [hv]
    exact ⟨rfl, by simp [assessedState_eq]⟩

/-- Witness for C3 at concrete inputs. -/
theorem C3_pending_cleared_witness :
    (({ new_stage := some Stage.REPO } : ValidationResult).new_stage.isSome = true) ∧
    (applyStageTransition { new_stage := some Stage.REPO }
      maxedWitnessState).pending_candidates = [] ∧
    maxedWitnessState.last_png_bytes = some pngHome ∧
    ((validate_node maxedWitnessState).1.stage = Stage.DONE ∧
      (validate_node maxedWitnessState).1.pending_candidates =
        maxedWitnessState.pending_candidates) :=
  ⟨by decide, C3_pending_cleared.1 _ _ (by decide), rfl,
    C3_pending_cleared.2 maxedWitnessState pngHome rfl (by decide) rfl⟩

/-- C3, counterexample: a reachable run in which ACT queues a second click
candidate and the next VALIDATE hits the step ceiling: the stage changes from
SEARCH_RESULTS to DONE while `pending_candidates` remains non-empty
immediately after the transition. -/
theorem C3_pending_counterexample :
    runSearchCands.2 = Node.validate ∧
    runSearchCands.1.stage = Stage.SEARCH_RESULTS ∧
    runSearchCands.1.pending_candidates =
      [{ bbox := [400, 400, 500, 450], confidence := none, reason := none }] ∧
    (stepNode oracleSearchCands Node.validate runSearchCands.1).1.stage = Stage.DONE ∧
    (stepNode oracleSearchCands Node.validate runSearchCands.1).1.pending_candidates =
      [{ bbox := [400, 400, 500, 450], confidence := none, reason := none }] := by
  decide

/-- C6, amended: whenever the stuck condition holds AND the step ceiling has
not been reached, VALIDATE substitutes the recovery action keyed by
`retry_count % 3` (scroll down / scroll up / back for residues 0 / 1 / 2),
and three consecutive stuck validations starting at `retry_count = 0` —
with the recovery actions executed by ACT in between — produce exactly
scroll-down, scroll-up, back.  The original claim's unconditional "whenever
the stuck condition holds" fails because the max-steps stop preempts the
recovery (see the counterexample). -/
theorem C6_stuck_rotation (s : AgentState) (png : Png) (bo1 bo2 : BrowserOracle)
    (hpng : s.last_png_bytes = some png)
    (hstuck : stuckCounts s png 3)
    (hstep : s.step_count + 2 < s.max_steps)
    (hlogin : urlHas s.current_url "/login" = false)
    (hretry : s.retry_count = 0)
    (hceil : 3 ≤ s.max_retries_per_stage) :
    (∀ (s' : AgentState) (png' : Png), stuckCounts s' png' 3 →
        s'.step_count < s'.max_steps →
        (assess 3 s' png').result.recovery_action = some (recoveryRotation s'.retry_count)) ∧
    (validate_node s).2 = Node.act ∧
    (validate_node s).1.last_action = some scrollDownRecovery ∧
    (validate_node s).1.retry_count = 1 ∧
    (act_node bo1 (validate_node s).1).2 = Node.validate ∧
    (validate_node (act_node bo1 (validate_node s).1).1).2 = Node.act ∧
    (validate_node (act_node bo1 (validate_node s).1).1).1.last_action =
      some scrollUpRecovery ∧
    (validate_node (act_node bo1 (validate_node s).1).1).1.retry_count = 2 ∧
    (act_node bo2 (validate_node (act_node bo1 (validate_node s).1).1).1).2 = Node.validate ∧
    (validate_node
      (act_node bo2 (validate_node (act_node bo1 (validate_node s).1).1).1).1).2 = Node.act ∧
    (validate_node
      (act_node bo2 (validate_node (act_node bo1 (validate_node s).1).1).1).1).1.last_action =
      some backRecovery ∧
    (validate_node
      (act_node bo2 (validate_node (act_node bo1 (validate_node s).1).1).1).1).1.retry_count =
      3 := by
  obtain ⟨a1, b1, c1, d1, e1, f1, g1, hm1, i1, j1, k1⟩ :=
    stuck_round s png bo1 hpng hstuck (by omega) hlogin (by omega)
  obtain ⟨a2, b2, c2, d2, e2, f2, g2, hm2, i2, j2, k2⟩ :=
    stuck_round _ png bo2 e1 f1 (by omega) k1 (by omega)
  obtain ⟨a3, b3, c3, -, -, -, -, -, -, -, -⟩ :=
    stuck_round _ png bo2 e2 f2 (by omega) k2 (by omega)
  rw [hretry] at b1 c1
  rw [i1, hretry] at b2 c2
  rw [i2, i1, hretry] at b3 c3
  refine ⟨fun s' png' h1 h2 => ?_, a1, b1, c1, d1, a2, b2, c2, d2, a3, b3, c3⟩
  rw [assess_stuck_result s' png' h1 h2]
  rfl

/-- Witness for C6 at a concrete stuck state. -/
theorem C6_stuck_rotation_witness :
    stuckWitnessState.last_png_bytes = some pngHome ∧
    stuckCounts stuckWitnessState pngHome 3 ∧
    stuckWitnessState.step_count + 2 < stuckWitnessState.max_steps ∧
    ((validate_node stuckWitnessState).1.last_action = some scrollDownRecovery ∧
      (validate_node stuckWitnessState).1.retry_count = 1) := by
  have h := C6_stuck_rotation stuckWitnessState pngHome {} {} rfl (by decide) (by decide)
    (by decide) rfl (by decide)
  exact ⟨rfl, by decide, by decide, h.2.2.1, h.2.2.2.1⟩

/-- C6, counterexample: a reachable run (unchanging home page, `max_steps`
3) whose third validation satisfies the stuck condition while the step
ceiling is reached: `assess` returns `should_stop` and no recovery action —
validation does not substitute the rotation recovery, contradicting the
claim's unconditional "whenever the stuck condition holds". -/
theorem C6_stuck_stop_counterexample :
    runHomeStuck3.2 = Node.validate ∧
    runHomeStuck3.1.last_png_bytes = some pngHome ∧
    stuckCounts runHomeStuck3.1 pngHome 3 ∧
    (assess 3 runHomeStuck3.1 pngHome).result.recovery_action = none ∧
    (assess 3 runHomeStuck3.1 pngHome).result.should_stop = true := by
  decide

/-- C9: in every reachable configuration, (i) DECIDE in SEARCH_RESULTS with a
non-empty queue builds the click from the head candidate without dequeuing it,
and (ii) any one step either leaves `pending_candidates` unchanged, pops its
head in VALIDATE's failed-navigation branch, clears it in VALIDATE's
stage-transition block, or (in ACT) rewrites a queue that was already
empty — so elements are removed only by VALIDATE's pop or clear. -/
theorem C9_pending_queue (s : AgentState) (n : Node) (hreach : Reachable (s, n)) :
    (∀ (a : Action) (c : Candidate) (rest : List Candidate),
        s.stage = Stage.SEARCH_RESULTS → s.pending_candidates = c :: rest →
        (decide_node a s).1.last_action =
          some { type := "click", reason := "pending_candidate", bbox := some c.bbox } ∧
        (decide_node a s).1.pending_candidates = c :: rest) ∧
    (∀ o : StepOracle,
        (stepNode o n s).1.pending_candidates = s.pending_candidates ∨
        (n = Node.validate ∧
          (stepNode o n s).1.pending_candidates = s.pending_candidates.tail ∧
          s.pending_candidates ≠ []) ∨
        (n = Node.validate ∧ (stepNode o n s).1.pending_candidates = []) ∨
        (n = Node.act ∧ s.pending_candidates = [])) := by
  obtain ⟨hpend, hact⟩ := reachable_inv _ hreach
  constructor
  · intro a c rest h1 h2
    exact decide_head_reuse a s c rest h1 h2
  · intro o
    cases n with
    | observe => left; rfl
    | decide => left; exact (decide_frame o.visionAction s).2.1
    | act =>
      rcases (act_pending_inv o.browser s hpend (hact rfl)).1 with he | he
      · left; exact he
      · right; right; right; exact ⟨rfl, he⟩
    | validate =>
      rcases (validate_step_facts s hpend).1 with he | he | he
      · left; exact he
      · right; left; exact ⟨rfl, he.1, he.2⟩
      · right; right; left; exact ⟨rfl, he⟩
    | extract =>
      left
      simp only [stepNode, extract_node]
      split <;> rfl
    | done => left; rfl

/-- Witness for C9 at a reachable configuration whose queue holds one
not-yet-tried candidate. -/
theorem C9_pending_queue_witness :
    (decide_node actNoop runSearchCands.1).1.last_action =
      some { type := "click", reason := "pending_candidate", bbox := some [400, 400, 500, 450] } ∧
    (decide_node actNoop runSearchCands.1).1.pending_candidates =
      [{ bbox := [400, 400, 500, 450], confidence := none, reason := none }] := by
  have h := (C9_pending_queue runSearchCands.1 Node.validate
      ⟨"openclaw/openclaw", "https://github.com", 1, 3, List.replicate 3 oracleSearchCands,
        by decide⟩).1 actNoop
      { bbox := [400, 400, 500, 450], confidence := none, reason := none } []
      (by decide) (by decide)
  exact ⟨h.1, h.2⟩

end BrowserAgent
